import Mathlib

/-!
Verification of the vesdio MRIO shock-propagation core.

Shallow embedding of `src/scenario_modeler.py`, the portfolio branch of
`src/callbacks.py::handle_simulation_results`, and the scenario persistence
round trip of `app.py` (`export_scenario` / `update_scenario_store`).

Modelling conventions:
* pandas label-indexed frames become a shared ordered label universe
  (`List Label`, read from `A_df.index` as the code does) together with total
  entry functions `Label → ℚ` / `Label → Label → ℚ`; the data contract says
  all five frames share one index.
* double-precision arithmetic is idealised as exact rational arithmetic;
  `np.linalg.inv` on an exactly singular block raises `LinAlgError`, modelled
  as a typed `SingularSystemError` result, and otherwise returns the exact
  inverse `det⁻¹ • adjugate`.
* `pd.Index.difference` returns the set difference (sorted in pandas); every
  consumer reads the endogenous block by label, never by position, so the
  universe-order `List.filter` below is observationally the same.
* label lookups (`.loc`) are modelled as total function application; theorems
  that need the pandas `KeyError`-freedom carry the membership hypotheses.
-/

abbrev Label := String × String

structure Shock where
  region : String
  sector : String
  magnitude : ℚ
deriving DecidableEq, Repr

def Shock.key (s : Shock) : Label := (s.region, s.sector)

/-- `pd.MultiIndex.from_tuples([(shock['region'], shock['sector']) ...])`:
keeps order and duplicates. -/
def exogenousLabels (shocks : List Shock) : List Label := shocks.map Shock.key

/-- `all_labels.difference(exogenous_labels)` (see the ordering note above). -/
def endogenousLabels (labels : List Label) (shocks : List Shock) : List Label :=
  labels.filter (fun l => decide (l ∉ exogenousLabels shocks))

/-- `M_df.loc[rows, cols].to_numpy()`: the positional matrix of a labelled
frame restricted to the given row and column label lists. -/
def subMatrix (M : Label → Label → ℚ) (rows cols : List Label) :
    Matrix (Fin rows.length) (Fin cols.length) ℚ :=
  Matrix.of fun i j => M (rows.get i) (cols.get j)

/-- `v_df.loc[rows, col].to_numpy()`. -/
def subVec (v : Label → ℚ) (rows : List Label) : Fin rows.length → ℚ :=
  fun i => v (rows.get i)

/-- The `x_m_new` loop: start from `X_df.loc[exogenous_labels]` and, for each
shock in order, multiply every row carrying that label by
`1 - shock['magnitude']` (`.loc` assignment hits all rows with the label, so
the per-label function view is exact). -/
def applyShocks (X : Label → ℚ) (shocks : List Shock) : Label → ℚ :=
  shocks.foldl (fun x s => fun l => if l = s.key then x l * (1 - s.magnitude) else x l) X

/-- Typed failure of the request-time `np.linalg.inv` on the exogenous block
(spec §7: `SingularSystemError`; realised in the code as `LinAlgError`). -/
inductive SingularSystemError where
  | singularMatrix
deriving DecidableEq, Repr

/-- Exact model of `np.linalg.inv` on a nonsingular matrix. -/
def npInv {k : ℕ} (M : Matrix (Fin k) (Fin k) ℚ) : Matrix (Fin k) (Fin k) ℚ :=
  M.det⁻¹ • M.adjugate

/-- Series lookup by label into a positional vector carried by an index list,
as `pd.Series(values, index=rows).loc[l]` for a unique index. -/
def seriesAt (rows : List Label) (values : Fin rows.length → ℚ) (l : Label) : ℚ :=
  if h : l ∈ rows then
    values ⟨rows.findIdx (fun x => x = l), List.findIdx_lt_length_of_exists ⟨l, h, by simp⟩⟩
  else 0

/-- `delta_x_m = x_m_new - x_m_old`, the positional vector over the
exogenous labels. -/
def exogenousDeltaXVec (X : Label → ℚ) (shocks : List Shock) :
    Fin (exogenousLabels shocks).length → ℚ :=
  fun i => applyShocks X shocks ((exogenousLabels shocks).get i) -
    X ((exogenousLabels shocks).get i)

/-- `endogenous_leontief_inv = L_nn - L_nm @ inv(L_mm) @ L_mn`. -/
def leontiefEndogenousInv (labels : List Label) (L : Label → Label → ℚ)
    (shocks : List Shock) :
    Matrix (Fin (endogenousLabels labels shocks).length)
      (Fin (endogenousLabels labels shocks).length) ℚ :=
  subMatrix L (endogenousLabels labels shocks) (endogenousLabels labels shocks) -
    subMatrix L (endogenousLabels labels shocks) (exogenousLabels shocks) *
      npInv (subMatrix L (exogenousLabels shocks) (exogenousLabels shocks)) *
    subMatrix L (exogenousLabels shocks) (endogenousLabels labels shocks)

/-- `x_n_new = endogenous_leontief_inv @ (y_n + A_mn.T @ delta_x_m)`. -/
def leontiefXnNew (labels : List Label) (A : Label → Label → ℚ) (X Y : Label → ℚ)
    (L : Label → Label → ℚ) (shocks : List Shock) :
    Fin (endogenousLabels labels shocks).length → ℚ :=
  (leontiefEndogenousInv labels L shocks).mulVec
    (subVec Y (endogenousLabels labels shocks) +
      (subMatrix A (exogenousLabels shocks) (endogenousLabels labels shocks)).transpose.mulVec
        (exogenousDeltaXVec X shocks))

/-- `delta_x = pd.concat([x_n_new, x_m_new]).reindex(X_df.index) - X`, read
by label. -/
def leontiefDeltaX (labels : List Label) (A : Label → Label → ℚ) (X Y : Label → ℚ)
    (L : Label → Label → ℚ) (shocks : List Shock) : Label → ℚ :=
  fun l =>
    (if l ∈ exogenousLabels shocks then applyShocks X shocks l
     else seriesAt (endogenousLabels labels shocks) (leontiefXnNew labels A X Y L shocks) l) -
    X l

/-- `delta_y_req = (I - A) @ delta_x` over the full label order. -/
def leontiefDeltaY (labels : List Label) (A : Label → Label → ℚ) (X Y : Label → ℚ)
    (L : Label → Label → ℚ) (shocks : List Shock) : Label → ℚ :=
  seriesAt labels
    ((1 - subMatrix A labels labels).mulVec
      (fun i => leontiefDeltaX labels A X Y L shocks (labels.get i)))

/-- `run_physical_risk(A_df, X_df, Y_df, L_df, shock_maps)` from
`src/scenario_modeler.py`.  Returns `(delta_y_req, delta_x)`; only the
`|M|×|M|` block `L_mm` is inverted.  The result functions are read at labels
of the universe (the pandas series after the final `reindex(X_df.index)`). -/
def run_physical_risk (labels : List Label) (A : Label → Label → ℚ) (X Y : Label → ℚ)
    (L : Label → Label → ℚ) (shocks : List Shock) :
    Except SingularSystemError (Option (Label → ℚ) × (Label → ℚ)) :=
  if (subMatrix L (exogenousLabels shocks) (exogenousLabels shocks)).det = 0 then
    .error .singularMatrix
  else
    .ok (some (leontiefDeltaY labels A X Y L shocks), leontiefDeltaX labels A X Y L shocks)

/-- `delta_x_n' = delta_x_m' @ inv(G_mm) @ G_mn` (row-vector form). -/
def ghoshDeltaXn (labels : List Label) (X : Label → ℚ) (G : Label → Label → ℚ)
    (shocks : List Shock) : Fin (endogenousLabels labels shocks).length → ℚ :=
  Matrix.vecMul
    (Matrix.vecMul (exogenousDeltaXVec X shocks)
      (npInv (subMatrix G (exogenousLabels shocks) (exogenousLabels shocks))))
    (subMatrix G (exogenousLabels shocks) (endogenousLabels labels shocks))

/-- Ghosh `delta_x`, read by label after the final reindex. -/
def ghoshDeltaX (labels : List Label) (X : Label → ℚ) (G : Label → Label → ℚ)
    (shocks : List Shock) : Label → ℚ :=
  fun l =>
    (if l ∈ exogenousLabels shocks then applyShocks X shocks l
     else X l + seriesAt (endogenousLabels labels shocks) (ghoshDeltaXn labels X G shocks) l) -
    X l

/-- `run_physical_risk_ghosh(A_df, X_df, G_df, shock_maps)` from
`src/scenario_modeler.py`.  Returns `(None, delta_x)`; only `G_mm` is
inverted.  `A_df` contributes its index (the label universe) only. -/
def run_physical_risk_ghosh (labels : List Label) (X : Label → ℚ)
    (G : Label → Label → ℚ) (shocks : List Shock) :
    Except SingularSystemError (Option (Label → ℚ) × (Label → ℚ)) :=
  if (subMatrix G (exogenousLabels shocks) (exogenousLabels shocks)).det = 0 then
    .error .singularMatrix
  else
    .ok (none, ghoshDeltaX labels X G shocks)

/-! ## Attribution engine (`attribute_output_change`) -/

/-- The Python string label `f"{region} - {sector}"`. -/
def fmtLabel (l : Label) : String := l.1 ++ " - " ++ l.2

/-- Python `dict` write `d[k] = v`: overwrite in place if the key exists,
else append. -/
def dictInsert (d : List (String × ℚ)) (k : String) (v : ℚ) : List (String × ℚ) :=
  if d.any (fun kv => kv.1 = k) then
    d.map (fun kv => if kv.1 = k then (kv.1, v) else kv)
  else d ++ [(k, v)]

/-- `initial_shocks = delta_x[delta_x.index.isin(shock_labels)].abs()`:
the universe labels that carry a shock, in universe order, with `|Δx|`. -/
def initialShockLabels (labels : List Label) (shocks : List Shock) : List Label :=
  labels.filter (fun l => decide (l ∈ exogenousLabels shocks))

/-- One shock label's raw contribution to the home sector, per closure:
Leontief `L[t,s]·|Δx[s]|`, Ghosh `G[s,t]·|Δx[s]|`, first-order fallback
`A[s,t]·|Δx[s]|`.  The Python guards `L_df is not None` etc. are dropped:
the callers always pass all three matrices. -/
def shockContribution (model_method : String) (delta_x : Label → ℚ) (home : Label)
    (L G A : Label → Label → ℚ) (s : Label) : ℚ :=
  if model_method = "leontief" then L home s * |delta_x s|
  else if model_method = "ghosh" then G s home * |delta_x s|
  else A s home * |delta_x s|

/-- The `impact_causes` dict: keyed by formatted string, later labels
overwriting earlier ones on a string collision. -/
def impactCauses (model_method : String) (labels : List Label) (delta_x : Label → ℚ)
    (shocks : List Shock) (home : Label) (L G A : Label → Label → ℚ) :
    List (String × ℚ) :=
  (initialShockLabels labels shocks).foldl
    (fun d l => dictInsert d (fmtLabel l) (shockContribution model_method delta_x home L G A l)) []

/-- `external_causes`: drop the key equal to the home sector's string. -/
def externalCauses (model_method : String) (labels : List Label) (delta_x : Label → ℚ)
    (shocks : List Shock) (home : Label) (L G A : Label → Label → ℚ) :
    List (String × ℚ) :=
  (impactCauses model_method labels delta_x shocks home L G A).filter
    (fun kv => decide (kv.1 ≠ fmtLabel home))

/-- `total_attributed_external`. -/
def totalAttributedExternal (model_method : String) (labels : List Label)
    (delta_x : Label → ℚ) (shocks : List Shock) (home : Label)
    (L G A : Label → Label → ℚ) : ℚ :=
  ((externalCauses model_method labels delta_x shocks home L G A).map Prod.snd).sum

structure AttributionResult where
  total_impact : ℚ
  causes : List (String × ℚ)
  message : String
deriving DecidableEq, Repr

/-- `attribute_output_change(model_method, delta_x, shock_maps, home_region,
home_sector, L_df, G_df, A_df)` from `src/scenario_modeler.py`.  `delta_x`
is a series over the label universe `labels`. -/
def attribute_output_change (model_method : String) (labels : List Label)
    (delta_x : Label → ℚ) (shocks : List Shock) (home_region home_sector : String)
    (L G A : Label → Label → ℚ) : AttributionResult :=
  let home := (home_region, home_sector)
  let total_impact := |delta_x home|
  if total_impact < 1e-10 then
    ⟨0, [], "No significant output change in your home sector."⟩
  else
    let external := externalCauses model_method labels delta_x shocks home L G A
    let total := (external.map Prod.snd).sum
    let sortedExternal := List.mergeSort external (fun a b => decide (b.2 ≤ a.2))
    ⟨total_impact,
     sortedExternal.map (fun kv => (kv.1, if total > 0 then kv.2 / total * 100 else 0)),
     "Change in Gross Output for " ++ home_sector⟩

/-! ## Portfolio aggregation (`handle_simulation_results`, portfolio branch) -/

structure Holding where
  region : String
  sector : String
  weight : ℚ
deriving DecidableEq, Repr

/-- Spec §7 typed failure of the portfolio weight gate; realised in the code
as the early-return error panel of `handle_simulation_results` and the
disabled run button of `update_run_button_state_and_message`. -/
inductive PortfolioWeightError where
  | weightsNot100
deriving DecidableEq, Repr

/-- `np.isclose(a, b)` with the default `rtol=1e-5`, `atol=1e-8`. -/
def npIsClose (a b : ℚ) : Bool := decide (|a - b| ≤ 1e-8 + 1e-5 * |b|)

/-- Python dict accumulation `d[k] = d.get(k, 0) + v`. -/
def dictAdd (d : List (String × ℚ)) (k : String) (v : ℚ) : List (String × ℚ) :=
  if d.any (fun kv => kv.1 = k) then
    d.map (fun kv => if kv.1 = k then (kv.1, kv.2 + v) else kv)
  else d ++ [(k, v)]

/-- Modelled from the spec: `attribute_portfolio_change` is imported by
`src/callbacks.py` from `src.scenario_modeler` but its definition is absent
from the available sources.  Spec §4.4: "Attribution is likewise computed as
the weight-normalized sum of each holding's individual attribution vector,
re-normalized to 100%."  This is the weight-normalized accumulation step. -/
def portfolioCombinedCauses (model_method : String) (labels : List Label)
    (delta_x : Label → ℚ) (shocks : List Shock) (portfolio : List Holding)
    (L G A : Label → Label → ℚ) : List (String × ℚ) :=
  (portfolio.map (fun it =>
    (it.weight / 100,
     attribute_output_change model_method labels delta_x shocks it.region it.sector
       L G A))).foldl
    (fun acc wa => wa.2.causes.foldl (fun d kv => dictAdd d kv.1 (wa.1 * kv.2)) acc) []

/-- Modelled from the spec (see `portfolioCombinedCauses`): the combined
portfolio attribution, re-normalized to 100%. -/
def attribute_portfolio_change (model_method : String) (labels : List Label)
    (delta_x : Label → ℚ) (shocks : List Shock) (portfolio : List Holding)
    (L G A : Label → Label → ℚ) : AttributionResult :=
  let combined := portfolioCombinedCauses model_method labels delta_x shocks portfolio L G A
  let total := (combined.map Prod.snd).sum
  ⟨(portfolio.map (fun it =>
      it.weight / 100 *
        (attribute_output_change model_method labels delta_x shocks it.region it.sector
          L G A).total_impact)).sum,
   combined.map (fun kv => (kv.1, if total > 0 then kv.2 / total * 100 else 0)),
   "Portfolio attribution"⟩

structure PortfolioOutcome where
  total_before_output : ℚ
  portfolio_after : ℚ
  percentage_change : ℚ
  attribution : AttributionResult
deriving DecidableEq, Repr

/-- The portfolio branch of `handle_simulation_results`
(`src/callbacks.py`, lines 84-112): weight gate via `np.isclose`, then the
weighted before/after totals, the percentage change, and the portfolio
attribution.  Presentation outputs (figures, html) are not modelled. -/
def handle_simulation_results_portfolio (model_method : String) (labels : List Label)
    (X delta_x : Label → ℚ) (shocks : List Shock) (portfolio : List Holding)
    (L G A : Label → Label → ℚ) : Except PortfolioWeightError PortfolioOutcome :=
  let total_weight := (portfolio.map Holding.weight).sum
  if ¬ npIsClose total_weight 100 then .error .weightsNot100 else
  let total_before_output :=
    (portfolio.map (fun it => X (it.region, it.sector) * (it.weight / 100))).sum
  let total_delta_x :=
    (portfolio.map (fun it => delta_x (it.region, it.sector) * (it.weight / 100))).sum
  let percentage_change :=
    if total_before_output > 1e-9 then total_delta_x / total_before_output * 100 else 0
  .ok ⟨total_before_output, total_before_output + total_delta_x, percentage_change,
       attribute_portfolio_change model_method labels delta_x shocks portfolio L G A⟩

/-- `update_run_button_state_and_message` (`app.py`, lines 732-744): the
disabled flag only; the formatted message is presentation. -/
def update_run_button_state (position_mode : String) (portfolio : List Holding) : Bool :=
  if position_mode = "portfolio" then
    ¬ npIsClose ((portfolio.map Holding.weight).sum) 100
  else false

/-! ## Scenario persistence (`export_scenario` / `update_scenario_store`)

The store records are `{'region': r, 'sector': s, 'magnitude': m}` in that
key order (`app.py` line 702); the builder magnitude slider has `step=1`,
so stored magnitudes are nonnegative integers.  `yaml.dump(...,
default_flow_style=False, sort_keys=False)` and `yaml.safe_load` are an
external library; they are modelled from the spec on the fragment this data
occupies.

Modelled from the spec: the "plain structured-text" serialization of spec §6
— a block-style sequential list of the three-field records, each record

  - region: R
    sector: S
    magnitude: M

with plain (unquoted, newline-free) string scalars and integer magnitudes,
exactly PyYAML's output shape for these dicts. -/

/-- Decimal digit characters of `n`, most significant first. -/
def natChars (n : ℕ) : List Char :=
  if n = 0 then ['0'] else (Nat.digits 10 n).reverse.map Nat.digitChar

def charVal (c : Char) : ℕ := c.toNat - 48

def parseNatChars (cs : List Char) : ℕ :=
  cs.foldl (fun a c => a * 10 + charVal c) 0

/-- The YAML scalar for a stored magnitude (nonnegative integer). -/
def dumpMag (q : ℚ) : List Char := natChars q.num.toNat

def parseMagChars (cs : List Char) : Option ℚ :=
  if cs ≠ [] ∧ cs.all Char.isDigit then some ((parseNatChars cs : ℕ) : ℚ) else none

/-- One exported record: three lines, newline-terminated. -/
def dumpShockChars (s : Shock) : List Char :=
  "- region: ".toList ++ s.region.toList ++ ['\n'] ++
  "  sector: ".toList ++ s.sector.toList ++ ['\n'] ++
  "  magnitude: ".toList ++ dumpMag s.magnitude ++ ['\n']

/-- `export_scenario` (`app.py`, lines 804-811): the YAML text written to
`custom_shock_scenario.yaml`. -/
def export_scenario (scenario : List Shock) : String :=
  String.mk (scenario.map dumpShockChars).flatten

def dropPrefixChars : List Char → List Char → Option (List Char)
  | [], cs => some cs
  | p :: ps, c :: cs => if c = p then dropPrefixChars ps cs else none
  | _ :: _, [] => none

/-- Split on `'\n'`. -/
def splitLines : List Char → List (List Char)
  | [] => [[]]
  | c :: cs =>
    match splitLines cs with
    | [] => [[c]]
    | l :: ls => if c = '\n' then [] :: l :: ls else (c :: l) :: ls

def parseShockLines : List (List Char) → Option (List Shock)
  | [l] => if l = [] then some [] else none
  | l1 :: l2 :: l3 :: rest => do
    let r ← dropPrefixChars "- region: ".toList l1
    let s ← dropPrefixChars "  sector: ".toList l2
    let mcs ← dropPrefixChars "  magnitude: ".toList l3
    let m ← parseMagChars mcs
    let tail ← parseShockLines rest
    some (⟨String.mk r, String.mk s, m⟩ :: tail)
  | _ => none

/-- The model of `yaml.safe_load` plus the key validation of the upload
branch, on the exported fragment. -/
def parseScenario (text : String) : Option (List Shock) :=
  parseShockLines (splitLines text.data)

/-- The `upload_contents` branch of `update_scenario_store` (`app.py`,
lines 703-713): a successfully parsed and validated upload replaces the
store; any failure leaves the store unchanged.  The browser's base64
transport wrapper is external and modelled post-decoding. -/
def update_scenario_store_upload (contents : String) (current_shocks : List Shock) :
    List Shock :=
  match parseScenario contents with
  | some uploaded => uploaded
  | none => current_shocks

/-! ## The 2-region / 2-sector test fixture (`tests/conftest.py`)

`A² = 0` for the fixture coefficients, so `L = (I-A)⁻¹ = I + A` and likewise
`G = I + B` with `B[i,j] = A[i,j]·X[j]/X[i]`; `X = L·Y` gives the gross
outputs 180, 150, 180, 200. -/

def fixtureLabels : List Label :=
  [("C1", "Farming"), ("C1", "Food Processing"), ("C2", "Mining"), ("C2", "Manufacturing")]

def fixtureA : Label → Label → ℚ := fun i j =>
  if i = ("C1", "Farming") ∧ j = ("C1", "Food Processing") then 2/5
  else if i = ("C2", "Mining") ∧ j = ("C2", "Manufacturing") then 1/2
  else if i = ("C1", "Farming") ∧ j = ("C2", "Manufacturing") then 1/10
  else 0

def fixtureY : Label → ℚ := fun l =>
  if l = ("C1", "Farming") then 100 else if l = ("C1", "Food Processing") then 150
  else if l = ("C2", "Mining") then 80 else if l = ("C2", "Manufacturing") then 200 else 0

def fixtureX : Label → ℚ := fun l =>
  if l = ("C1", "Farming") then 180 else if l = ("C1", "Food Processing") then 150
  else if l = ("C2", "Mining") then 180 else if l = ("C2", "Manufacturing") then 200 else 0

def fixtureL : Label → Label → ℚ := fun i j =>
  (if i = j then 1 else 0) + fixtureA i j

def fixtureG : Label → Label → ℚ := fun i j =>
  (if i = j then 1 else 0) + fixtureA i j * fixtureX j / fixtureX i

/-! ## Helper lemmas -/

theorem applyShocks_cons (X : Label → ℚ) (t : Shock) (ts : List Shock) :
    applyShocks X (t :: ts) =
      applyShocks (fun l => if l = t.key then X l * (1 - t.magnitude) else X l) ts := rfl

theorem applyShocks_not_mem (X : Label → ℚ) (shocks : List Shock) (l : Label)
    (h : l ∉ exogenousLabels shocks) : applyShocks X shocks l = X l := by
  induction shocks generalizing X with
  | nil => rfl
  | cons t ts ih =>
    have hl : l ≠ t.key ∧ l ∉ exogenousLabels ts := by
      simpa [exogenousLabels, not_or] using h
    rw [applyShocks_cons, ih _ hl.2]
    simp [hl.1]

theorem applyShocks_key (X : Label → ℚ) (shocks : List Shock)
    (hk : (exogenousLabels shocks).Nodup) (s : Shock) (hs : s ∈ shocks) :
    applyShocks X shocks s.key = X s.key * (1 - s.magnitude) := by
  induction shocks generalizing X with
  | nil => cases hs
  | cons t ts ih =>
    have hk2 : t.key ∉ exogenousLabels ts ∧ (exogenousLabels ts).Nodup := by
      simpa [exogenousLabels] using List.nodup_cons.mp hk
    rw [applyShocks_cons]
    rcases List.mem_cons.mp hs with rfl | hs2
    · rw [applyShocks_not_mem _ _ _ hk2.1]
      simp
    · have hne : s.key ≠ t.key := by
        intro he
        exact hk2.1 (he ▸ List.mem_map.mpr ⟨s, hs2, rfl⟩)
      rw [ih _ hk2.2 hs2]
      simp [hne]

theorem mem_endogenousLabels {labels : List Label} {shocks : List Shock} {l : Label} :
    l ∈ endogenousLabels labels shocks ↔ l ∈ labels ∧ l ∉ exogenousLabels shocks := by
  simp [endogenousLabels, List.mem_filter]

theorem endogenousLabels_nodup {labels : List Label} (h : labels.Nodup)
    (shocks : List Shock) : (endogenousLabels labels shocks).Nodup :=
  h.filter _

theorem seriesAt_get {rows : List Label} (hnd : rows.Nodup)
    (values : Fin rows.length → ℚ) (i : Fin rows.length) :
    seriesAt rows values (rows.get i) = values i := by
  have hmem : rows.get i ∈ rows := rows.get_mem i.1 i.2
  rw [seriesAt, dif_pos hmem]
  congr 1
  have hlt : rows.findIdx (fun x => decide (x = rows.get i)) < rows.length :=
    List.findIdx_lt_length_of_exists ⟨rows.get i, hmem, by simp⟩
  have hp : (fun x => decide (x = rows.get i))
      (rows.get ⟨rows.findIdx (fun x => decide (x = rows.get i)), hlt⟩) = true := by
    simpa using List.findIdx_getElem (w := hlt)
  have heq : rows.get ⟨rows.findIdx (fun x => decide (x = rows.get i)), hlt⟩ = rows.get i :=
    of_decide_eq_true hp
  exact List.nodup_iff_injective_get.mp hnd heq

theorem npInv_eq_inv {k : ℕ} (M : Matrix (Fin k) (Fin k) ℚ) : npInv M = M⁻¹ := by
  rw [npInv, Matrix.inv_def, Ring.inverse_eq_inv']

theorem sum_map_div_mul (l : List ℚ) (t : ℚ) :
    (l.map (fun x => x / t * 100)).sum = l.sum / t * 100 := by
  induction l with
  | nil => simp
  | cons x xs ih =>
    simp only [List.map_cons, List.sum_cons, ih]
    ring

theorem normalized_sum (l : List (String × ℚ)) (t : ℚ) (ht : 0 < t)
    (hsum : (l.map Prod.snd).sum = t) :
    ((l.map (fun kv => (kv.1, kv.2 / t * 100))).map Prod.snd).sum = 100 := by
  rw [List.map_map]
  have h1 : (Prod.snd ∘ fun kv : String × ℚ => (kv.1, kv.2 / t * 100)) =
      ((fun x => x / t * 100) ∘ Prod.snd) := rfl
  rw [h1, ← List.map_map, sum_map_div_mul, hsum, div_self (ne_of_gt ht), one_mul]

theorem det_subMatrix_single (M : Label → Label → ℚ) (l : Label) :
    (subMatrix M [l] [l]).det = M l l :=
  (Matrix.det_fin_one (subMatrix M [l] [l])).trans rfl

/-! ## C1 — Leontief-closure solver -/

/-- C1: for every nonempty shock set with unique keys inside the label
universe whose exogenous Leontief block is invertible, `run_physical_risk`
succeeds; the shocked block of the returned output satisfies
`x_m_new = x_m_old · (1 − magnitude)` element-wise; the endogenous block is
`x_n_new = (L_nn − L_nm·L_mm⁻¹·L_mn)·(y_n + A_mnᵀ·(x_m_new − x_m_old))`
(only the `|M|×|M|` block `L_mm` is inverted at request time — the sole
inversion in `run_physical_risk` is `npInv` of that block, by inspection of
the definition); the first returned value is `Δy_required = (I − A)·Δx`
over the full label order. -/
theorem run_physical_risk_spec
    (labels : List Label) (A : Label → Label → ℚ) (X Y : Label → ℚ)
    (L : Label → Label → ℚ) (shocks : List Shock)
    (_hne : shocks ≠ [])
    (hlab : labels.Nodup)
    (hkeys : (exogenousLabels shocks).Nodup)
    (_hin : ∀ s ∈ shocks, s.key ∈ labels)
    (hdet : (subMatrix L (exogenousLabels shocks) (exogenousLabels shocks)).det ≠ 0) :
    ∃ dy dx,
      run_physical_risk labels A X Y L shocks = .ok (some dy, dx) ∧
      (∀ s ∈ shocks, X s.key + dx s.key = X s.key * (1 - s.magnitude)) ∧
      (∀ i : Fin (endogenousLabels labels shocks).length,
        X ((endogenousLabels labels shocks).get i) +
          dx ((endogenousLabels labels shocks).get i) =
        ((subMatrix L (endogenousLabels labels shocks) (endogenousLabels labels shocks) -
            subMatrix L (endogenousLabels labels shocks) (exogenousLabels shocks) *
              (subMatrix L (exogenousLabels shocks) (exogenousLabels shocks))⁻¹ *
            subMatrix L (exogenousLabels shocks) (endogenousLabels labels shocks)).mulVec
          (subVec Y (endogenousLabels labels shocks) +
            (subMatrix A (exogenousLabels shocks)
                (endogenousLabels labels shocks)).transpose.mulVec
              (exogenousDeltaXVec X shocks))) i) ∧
      (∀ i : Fin labels.length,
        dy (labels.get i) =
          ((1 - subMatrix A labels labels).mulVec
            (fun j => dx (labels.get j))) i) := by
  refine ⟨leontiefDeltaY labels A X Y L shocks, leontiefDeltaX labels A X Y L shocks,
    ?_, ?_, ?_, ?_⟩
  · rw [run_physical_risk, if_neg hdet]
  · intro s hs
    have hkey : s.key ∈ exogenousLabels shocks := List.mem_map.mpr ⟨s, hs, rfl⟩
    simp only [leontiefDeltaX]
    rw [if_pos hkey, applyShocks_key X shocks hkeys s hs]
    ring
  · intro i
    have hmem : (endogenousLabels labels shocks).get i ∈ endogenousLabels labels shocks :=
      (endogenousLabels labels shocks).get_mem i.1 i.2
    have hnot : (endogenousLabels labels shocks).get i ∉ exogenousLabels shocks :=
      (mem_endogenousLabels.mp hmem).2
    simp only [leontiefDeltaX]
    rw [if_neg hnot, seriesAt_get (endogenousLabels_nodup hlab shocks)]
    simp only [leontiefXnNew, leontiefEndogenousInv, npInv_eq_inv]
    ring
  · intro i
    simp only [leontiefDeltaY]
    rw [seriesAt_get hlab]

/-- Witness for C1 at the test fixture: a 50% shock to C1-Farming. -/
theorem run_physical_risk_spec_witness :
    ∃ dy dx,
      run_physical_risk fixtureLabels fixtureA fixtureX fixtureY fixtureL
        [⟨"C1", "Farming", 1/2⟩] = .ok (some dy, dx) ∧
      (∀ s ∈ [(⟨"C1", "Farming", 1/2⟩ : Shock)],
        fixtureX s.key + dx s.key = fixtureX s.key * (1 - s.magnitude)) ∧
      (∀ i : Fin (endogenousLabels fixtureLabels [⟨"C1", "Farming", 1/2⟩]).length,
        fixtureX ((endogenousLabels fixtureLabels [⟨"C1", "Farming", 1/2⟩]).get i) +
          dx ((endogenousLabels fixtureLabels [⟨"C1", "Farming", 1/2⟩]).get i) =
        ((subMatrix fixtureL (endogenousLabels fixtureLabels [⟨"C1", "Farming", 1/2⟩])
              (endogenousLabels fixtureLabels [⟨"C1", "Farming", 1/2⟩]) -
            subMatrix fixtureL (endogenousLabels fixtureLabels [⟨"C1", "Farming", 1/2⟩])
              (exogenousLabels [⟨"C1", "Farming", 1/2⟩]) *
              (subMatrix fixtureL (exogenousLabels [⟨"C1", "Farming", 1/2⟩])
                (exogenousLabels [⟨"C1", "Farming", 1/2⟩]))⁻¹ *
            subMatrix fixtureL (exogenousLabels [⟨"C1", "Farming", 1/2⟩])
              (endogenousLabels fixtureLabels [⟨"C1", "Farming", 1/2⟩])).mulVec
          (subVec fixtureY (endogenousLabels fixtureLabels [⟨"C1", "Farming", 1/2⟩]) +
            (subMatrix fixtureA (exogenousLabels [⟨"C1", "Farming", 1/2⟩])
                (endogenousLabels fixtureLabels [⟨"C1", "Farming", 1/2⟩])).transpose.mulVec
              (exogenousDeltaXVec fixtureX [⟨"C1", "Farming", 1/2⟩]))) i) ∧
      (∀ i : Fin fixtureLabels.length,
        dy (fixtureLabels.get i) =
          ((1 - subMatrix fixtureA fixtureLabels fixtureLabels).mulVec
            (fun j => dx (fixtureLabels.get j))) i) :=
  run_physical_risk_spec fixtureLabels fixtureA fixtureX fixtureY fixtureL
    [⟨"C1", "Farming", 1/2⟩] (by decide) (by decide) (by decide) (by decide)
    (by
      rw [show exogenousLabels [(⟨"C1", "Farming", 1/2⟩ : Shock)] = [("C1", "Farming")] from
            rfl,
          det_subMatrix_single]
      norm_num +decide [fixtureL, fixtureA])

/-! ## C2 — Ghosh-closure solver -/

/-- C2: for every nonempty shock set with unique keys inside the label
universe whose exogenous Ghosh block is invertible,
`run_physical_risk_ghosh` succeeds with a `None` first slot (no
`Δy_required` under this closure); the endogenous block of the returned
output change is the row-vector product `Δx_n = Δx_mᵗ · G_mm⁻¹ · G_mn`, so
`x_n_new = x_n_old + Δx_n`; only the `|M|×|M|` block `G_mm` is inverted at
request time — the sole inversion in `run_physical_risk_ghosh` is `npInv`
of that block, by inspection of the definition. -/
theorem run_physical_risk_ghosh_spec
    (labels : List Label) (X : Label → ℚ) (G : Label → Label → ℚ)
    (shocks : List Shock)
    (_hne : shocks ≠ [])
    (hlab : labels.Nodup)
    (hkeys : (exogenousLabels shocks).Nodup)
    (_hin : ∀ s ∈ shocks, s.key ∈ labels)
    (hdet : (subMatrix G (exogenousLabels shocks) (exogenousLabels shocks)).det ≠ 0) :
    ∃ dx,
      run_physical_risk_ghosh labels X G shocks = .ok (none, dx) ∧
      (∀ i : Fin (endogenousLabels labels shocks).length,
        dx ((endogenousLabels labels shocks).get i) =
          Matrix.vecMul (exogenousDeltaXVec X shocks)
            ((subMatrix G (exogenousLabels shocks) (exogenousLabels shocks))⁻¹ *
              subMatrix G (exogenousLabels shocks) (endogenousLabels labels shocks)) i) ∧
      (∀ s ∈ shocks, X s.key + dx s.key = X s.key * (1 - s.magnitude)) := by
  refine ⟨ghoshDeltaX labels X G shocks, ?_, ?_, ?_⟩
  · rw [run_physical_risk_ghosh, if_neg hdet]
  · intro i
    have hmem : (endogenousLabels labels shocks).get i ∈ endogenousLabels labels shocks :=
      (endogenousLabels labels shocks).get_mem i.1 i.2
    have hnot : (endogenousLabels labels shocks).get i ∉ exogenousLabels shocks :=
      (mem_endogenousLabels.mp hmem).2
    simp only [ghoshDeltaX]
    rw [if_neg hnot, seriesAt_get (endogenousLabels_nodup hlab shocks)]
    simp only [ghoshDeltaXn, npInv_eq_inv, Matrix.vecMul_vecMul]
    ring
  · intro s hs
    have hkey : s.key ∈ exogenousLabels shocks := List.mem_map.mpr ⟨s, hs, rfl⟩
    simp only [ghoshDeltaX]
    rw [if_pos hkey, applyShocks_key X shocks hkeys s hs]
    ring

/-- Witness for C2 at the test fixture: a 100% shock to C2-Mining. -/
theorem run_physical_risk_ghosh_spec_witness :
    ∃ dx,
      run_physical_risk_ghosh fixtureLabels fixtureX fixtureG [⟨"C2", "Mining", 1⟩] =
        .ok (none, dx) ∧
      (∀ i : Fin (endogenousLabels fixtureLabels [⟨"C2", "Mining", 1⟩]).length,
        dx ((endogenousLabels fixtureLabels [⟨"C2", "Mining", 1⟩]).get i) =
          Matrix.vecMul (exogenousDeltaXVec fixtureX [⟨"C2", "Mining", 1⟩])
            ((subMatrix fixtureG (exogenousLabels [⟨"C2", "Mining", 1⟩])
                (exogenousLabels [⟨"C2", "Mining", 1⟩]))⁻¹ *
              subMatrix fixtureG (exogenousLabels [⟨"C2", "Mining", 1⟩])
                (endogenousLabels fixtureLabels [⟨"C2", "Mining", 1⟩])) i) ∧
      (∀ s ∈ [(⟨"C2", "Mining", 1⟩ : Shock)],
        fixtureX s.key + dx s.key = fixtureX s.key * (1 - s.magnitude)) :=
  run_physical_risk_ghosh_spec fixtureLabels fixtureX fixtureG [⟨"C2", "Mining", 1⟩]
    (by decide) (by decide) (by decide) (by decide)
    (by
      rw [show exogenousLabels [(⟨"C2", "Mining", 1⟩ : Shock)] = [("C2", "Mining")] from rfl,
          det_subMatrix_single]
      norm_num +decide [fixtureG, fixtureA, fixtureX])

/-! ## C3 — a 100% shock zeroes the shocked sector under both closures -/

/-- C3: for a single shock on sector `(r, s)` with magnitude exactly 1,
both solvers succeed (given the invertibility of the 1×1 exogenous block,
i.e. a nonzero diagonal entry) and drive the shocked sector's new output
exactly to zero: `Δx[(r,s)] = -x_old[(r,s)]`. -/
theorem full_shock_zeroes_sector
    (labels : List Label) (A : Label → Label → ℚ) (X Y : Label → ℚ)
    (L G : Label → Label → ℚ) (r s : String)
    (_hmem : (r, s) ∈ labels)
    (hL : L (r, s) (r, s) ≠ 0) (hG : G (r, s) (r, s) ≠ 0) :
    ∃ pL pG,
      run_physical_risk labels A X Y L [⟨r, s, 1⟩] = .ok pL ∧
      run_physical_risk_ghosh labels X G [⟨r, s, 1⟩] = .ok pG ∧
      pL.2 (r, s) = -(X (r, s)) ∧ pG.2 (r, s) = -(X (r, s)) := by
  have hdL : (subMatrix L (exogenousLabels [⟨r, s, 1⟩]) (exogenousLabels [⟨r, s, 1⟩])).det ≠ 0 := by
    rw [show exogenousLabels [(⟨r, s, 1⟩ : Shock)] = [(r, s)] from rfl, det_subMatrix_single]
    exact hL
  have hdG : (subMatrix G (exogenousLabels [⟨r, s, 1⟩]) (exogenousLabels [⟨r, s, 1⟩])).det ≠ 0 := by
    rw [show exogenousLabels [(⟨r, s, 1⟩ : Shock)] = [(r, s)] from rfl, det_subMatrix_single]
    exact hG
  have hkey : ((r, s) : Label) ∈ exogenousLabels [(⟨r, s, 1⟩ : Shock)] :=
    List.mem_singleton.mpr rfl
  have happ : applyShocks X [(⟨r, s, 1⟩ : Shock)] (r, s) = X (r, s) * (1 - 1) :=
    applyShocks_key X [⟨r, s, 1⟩] (List.nodup_singleton _) ⟨r, s, 1⟩
      (List.mem_singleton.mpr rfl)
  refine ⟨_, _, by rw [run_physical_risk, if_neg hdL], by rw [run_physical_risk_ghosh, if_neg hdG], ?_, ?_⟩
  · simp only [leontiefDeltaX]
    rw [if_pos hkey, happ]
    ring
  · simp only [ghoshDeltaX]
    rw [if_pos hkey, happ]
    ring

/-! ## C5 — singular exogenous block fails with the typed error -/

/-- C5: whenever the exogenous sub-block to be inverted at request time
(`L_mm` for the Leontief solver, `G_mm` for the Ghosh solver) is singular,
the solver fails with `SingularSystemError` (the typed model of the
`np.linalg.LinAlgError` raised by `np.linalg.inv`) rather than producing
numbers. -/
theorem singular_block_errors
    (labels : List Label) (A : Label → Label → ℚ) (X Y : Label → ℚ)
    (L G : Label → Label → ℚ) (shocks : List Shock) :
    ((subMatrix L (exogenousLabels shocks) (exogenousLabels shocks)).det = 0 →
      run_physical_risk labels A X Y L shocks = .error .singularMatrix) ∧
    ((subMatrix G (exogenousLabels shocks) (exogenousLabels shocks)).det = 0 →
      run_physical_risk_ghosh labels X G shocks = .error .singularMatrix) := by
  constructor
  · intro h
    rw [run_physical_risk, if_pos h]
  · intro h
    rw [run_physical_risk_ghosh, if_pos h]

/-- Witness for C5: an all-zero inverse matrix makes the 1×1 exogenous
block singular and both solvers return the typed error. -/
theorem singular_block_errors_witness :
    ((subMatrix (fun _ _ => (0 : ℚ)) (exogenousLabels [⟨"R", "S", 1/2⟩])
        (exogenousLabels [⟨"R", "S", 1/2⟩])).det = 0 ∧
      run_physical_risk [("R", "S")] (fun _ _ => 0) (fun _ => 1) (fun _ => 1)
        (fun _ _ => 0) [⟨"R", "S", 1/2⟩] = .error .singularMatrix) ∧
    run_physical_risk_ghosh [("R", "S")] (fun _ => 1) (fun _ _ => 0)
      [⟨"R", "S", 1/2⟩] = .error .singularMatrix := by
  have hdet : (subMatrix (fun _ _ => (0 : ℚ)) (exogenousLabels [(⟨"R", "S", 1/2⟩ : Shock)])
      (exogenousLabels [⟨"R", "S", 1/2⟩])).det = 0 := by
    rw [show exogenousLabels [(⟨"R", "S", 1/2⟩ : Shock)] = [("R", "S")] from rfl,
        det_subMatrix_single]
  exact ⟨⟨hdet,
    (singular_block_errors [("R", "S")] (fun _ _ => 0) (fun _ => 1) (fun _ => 1)
      (fun _ _ => 0) (fun _ _ => 0) [⟨"R", "S", 1/2⟩]).1 hdet⟩,
    (singular_block_errors [("R", "S")] (fun _ _ => 0) (fun _ => 1) (fun _ => 1)
      (fun _ _ => 0) (fun _ _ => 0) [⟨"R", "S", 1/2⟩]).2 hdet⟩

/-! ## C6 — duplicate shock keys are not merged: they make the block singular -/

theorem det_exogBlock_zero_of_dup (M : Label → Label → ℚ) (shocks : List Shock)
    (h : ¬ (exogenousLabels shocks).Nodup) :
    (subMatrix M (exogenousLabels shocks) (exogenousLabels shocks)).det = 0 := by
  have hni : ¬ Function.Injective (exogenousLabels shocks).get := fun hinj =>
    h (List.nodup_iff_injective_get.mpr hinj)
  obtain ⟨i, j, heq, hne⟩ := Function.not_injective_iff.mp hni
  exact Matrix.det_zero_of_row_eq hne (funext fun k =>
    show M ((exogenousLabels shocks).get i) ((exogenousLabels shocks).get k) =
        M ((exogenousLabels shocks).get j) ((exogenousLabels shocks).get k) from
      by rw [heq])

/-- C6 counterexample: listing the same (region, sector) key twice does not
reduce to the last-listed magnitude; the duplicated key makes `L_mm` contain
two identical rows, so the solver errors while the deduplicated shock set
solves.  The two runs are therefore not equal. -/
theorem duplicate_shocks_cex :
    run_physical_risk fixtureLabels fixtureA fixtureX fixtureY fixtureL
        [⟨"C1", "Farming", 1/2⟩, ⟨"C1", "Farming", 1/4⟩] ≠
      run_physical_risk fixtureLabels fixtureA fixtureX fixtureY fixtureL
        [⟨"C1", "Farming", 1/4⟩] := by
  have h1 : run_physical_risk fixtureLabels fixtureA fixtureX fixtureY fixtureL
      [⟨"C1", "Farming", 1/2⟩, ⟨"C1", "Farming", 1/4⟩] = .error .singularMatrix := by
    rw [run_physical_risk, if_pos (det_exogBlock_zero_of_dup fixtureL _ (by decide))]
  have h2 : run_physical_risk fixtureLabels fixtureA fixtureX fixtureY fixtureL
      [⟨"C1", "Farming", 1/4⟩] =
      .ok (some (leontiefDeltaY fixtureLabels fixtureA fixtureX fixtureY fixtureL
              [⟨"C1", "Farming", 1/4⟩]),
           leontiefDeltaX fixtureLabels fixtureA fixtureX fixtureY fixtureL
              [⟨"C1", "Farming", 1/4⟩]) := by
    rw [run_physical_risk, if_neg]
    rw [show exogenousLabels [(⟨"C1", "Farming", 1/4⟩ : Shock)] = [("C1", "Farming")] from rfl,
        det_subMatrix_single]
    norm_num +decide [fixtureL, fixtureA]
  rw [h1, h2]
  exact fun hc => Except.noConfusion hc

/-- C6 (amended): the solvers do not merge duplicate (region, sector) keys;
for every shock list whose key list has a duplicate, the exogenous block
(`L_mm` resp. `G_mm`) has two identical rows, is singular, and both solvers
fail with `SingularSystemError` instead of solving the merged set. -/
theorem duplicate_shocks_error
    (labels : List Label) (A : Label → Label → ℚ) (X Y : Label → ℚ)
    (L G : Label → Label → ℚ) (shocks : List Shock)
    (h : ¬ (exogenousLabels shocks).Nodup) :
    run_physical_risk labels A X Y L shocks = .error .singularMatrix ∧
    run_physical_risk_ghosh labels X G shocks = .error .singularMatrix := by
  constructor
  · rw [run_physical_risk, if_pos (det_exogBlock_zero_of_dup L shocks h)]
  · rw [run_physical_risk_ghosh, if_pos (det_exogBlock_zero_of_dup G shocks h)]

/-- Witness for the amended C6 at the test fixture. -/
theorem duplicate_shocks_error_witness :
    run_physical_risk fixtureLabels fixtureA fixtureX fixtureY fixtureL
        [⟨"C2", "Mining", 1/2⟩, ⟨"C2", "Mining", 1/4⟩] = .error .singularMatrix ∧
    run_physical_risk_ghosh fixtureLabels fixtureX fixtureG
        [⟨"C2", "Mining", 1/2⟩, ⟨"C2", "Mining", 1/4⟩] = .error .singularMatrix :=
  duplicate_shocks_error fixtureLabels fixtureA fixtureX fixtureY fixtureL fixtureG
    [⟨"C2", "Mining", 1/2⟩, ⟨"C2", "Mining", 1/4⟩] (by decide)

/-! ## C4 — attribution normalization -/

theorem attribute_output_change_main (model_method : String) (labels : List Label)
    (delta_x : Label → ℚ) (shocks : List Shock) (home_region home_sector : String)
    (L G A : Label → Label → ℚ)
    (h : ¬ |delta_x (home_region, home_sector)| < 1e-10) :
    attribute_output_change model_method labels delta_x shocks home_region home_sector
        L G A =
      ⟨|delta_x (home_region, home_sector)|,
       (List.mergeSort
          (externalCauses model_method labels delta_x shocks (home_region, home_sector) L G A)
          (fun a b => decide (b.2 ≤ a.2))).map
         (fun kv => (kv.1,
            if 0 < totalAttributedExternal model_method labels delta_x shocks
                (home_region, home_sector) L G A
            then kv.2 / totalAttributedExternal model_method labels delta_x shocks
                (home_region, home_sector) L G A * 100
            else 0)),
       "Change in Gross Output for " ++ home_sector⟩ := by
  simp only [attribute_output_change, totalAttributedExternal, if_neg h]

/-- C4 (amended): in `attribute_output_change`, if the target's output
change has magnitude below 1e-10 the zero-impact sentinel (total_impact 0,
empty causes) is returned; otherwise the result carries
`total_impact = |Δx[target]|` and, when the external contributions sum to a
*positive* value, the normalized causes sum to exactly 100 with no cause
label equal to the target's label, while a zero or negative external sum
yields all-zero percentages (not the sentinel). -/
theorem attribute_output_change_spec
    (model_method : String) (labels : List Label) (delta_x : Label → ℚ)
    (shocks : List Shock) (home_region home_sector : String)
    (L G A : Label → Label → ℚ) :
    (|delta_x (home_region, home_sector)| < 1e-10 →
      attribute_output_change model_method labels delta_x shocks home_region home_sector
          L G A =
        ⟨0, [], "No significant output change in your home sector."⟩) ∧
    (¬ |delta_x (home_region, home_sector)| < 1e-10 →
      (0 < totalAttributedExternal model_method labels delta_x shocks
          (home_region, home_sector) L G A →
        ((attribute_output_change model_method labels delta_x shocks home_region home_sector
            L G A).causes.map Prod.snd).sum = 100 ∧
        ∀ kv ∈ (attribute_output_change model_method labels delta_x shocks home_region
            home_sector L G A).causes, kv.1 ≠ fmtLabel (home_region, home_sector)) ∧
      (totalAttributedExternal model_method labels delta_x shocks (home_region, home_sector)
          L G A ≤ 0 →
        ∀ kv ∈ (attribute_output_change model_method labels delta_x shocks home_region
            home_sector L G A).causes, kv.2 = 0) ∧
      (attribute_output_change model_method labels delta_x shocks home_region home_sector
          L G A).total_impact = |delta_x (home_region, home_sector)|) := by
  constructor
  · intro h
    simp only [attribute_output_change, if_pos h]
  · intro h
    rw [attribute_output_change_main model_method labels delta_x shocks home_region
      home_sector L G A h]
    have hperm := List.mergeSort_perm
      (externalCauses model_method labels delta_x shocks (home_region, home_sector) L G A)
      (fun a b => decide (b.2 ≤ a.2))
    refine ⟨?_, ?_, rfl⟩
    · intro ht
      constructor
      · simp only [ht, if_true]
        exact normalized_sum _ _ ht ((hperm.map Prod.snd).sum_eq)
      · intro kv hkv
        obtain ⟨kv0, hkv0, hfkv⟩ := List.mem_map.mp hkv
        have hext : kv0 ∈ externalCauses model_method labels delta_x shocks
            (home_region, home_sector) L G A := hperm.mem_iff.mp hkv0
        have hne : kv0.1 ≠ fmtLabel (home_region, home_sector) :=
          of_decide_eq_true (List.mem_filter.mp hext).2
        rw [← hfkv]
        exact hne
    · intro ht kv hkv
      obtain ⟨kv0, _, hfkv⟩ := List.mem_map.mp hkv
      rw [← hfkv]
      simp [not_lt.mpr ht]

/-- C4 counterexample for the claim as stated: with a target whose output
change is 1 (≥ 1e-10) and a single external shock whose contribution is 0,
the external contributions sum to zero, yet the result is NOT the
zero-impact sentinel — it keeps `total_impact = 1` and a nonempty causes
map; and with a contribution of −1 the external sum is nonzero, yet the
causes normalize to all zeros summing to 0, not 100. -/
theorem attribute_output_change_claim_cex :
    totalAttributedExternal "leontief" [("R", "T"), ("R2", "S2")] (fun _ => 1)
        [⟨"R2", "S2", 1/2⟩] ("R", "T") (fun _ _ => 0) (fun _ _ => 0) (fun _ _ => 0) = 0 ∧
    attribute_output_change "leontief" [("R", "T"), ("R2", "S2")] (fun _ => 1)
        [⟨"R2", "S2", 1/2⟩] "R" "T" (fun _ _ => 0) (fun _ _ => 0) (fun _ _ => 0) =
      ⟨1, [("R2 - S2", 0)], "Change in Gross Output for T"⟩ ∧
    totalAttributedExternal "leontief" [("R", "T"), ("R2", "S2")] (fun _ => 1)
        [⟨"R2", "S2", 1/2⟩] ("R", "T") (fun _ _ => -1) (fun _ _ => 0) (fun _ _ => 0) = -1 ∧
    attribute_output_change "leontief" [("R", "T"), ("R2", "S2")] (fun _ => 1)
        [⟨"R2", "S2", 1/2⟩] "R" "T" (fun _ _ => -1) (fun _ _ => 0) (fun _ _ => 0) =
      ⟨1, [("R2 - S2", 0)], "Change in Gross Output for T"⟩ := by
  refine ⟨?_, ?_, ?_, ?_⟩ <;>
    norm_num +decide [attribute_output_change, totalAttributedExternal, externalCauses,
      impactCauses, initialShockLabels, exogenousLabels, dictInsert, fmtLabel,
      shockContribution, Shock.key]

/-- Witness for the amended C4: the sentinel branch at a zero change, and
the normalized 100% sum at a positive external contribution. -/
theorem attribute_output_change_spec_witness :
    attribute_output_change "leontief" [("R", "T"), ("R2", "S2")] (fun _ => 0)
        [⟨"R2", "S2", 1/2⟩] "R" "T" (fun _ _ => 1) (fun _ _ => 0) (fun _ _ => 0) =
      ⟨0, [], "No significant output change in your home sector."⟩ ∧
    ((attribute_output_change "leontief" [("R", "T"), ("R2", "S2")] (fun _ => 1)
        [⟨"R2", "S2", 1/2⟩] "R" "T" (fun _ _ => 1) (fun _ _ => 0)
        (fun _ _ => 0)).causes.map Prod.snd).sum = 100 := by
  constructor
  · exact (attribute_output_change_spec "leontief" [("R", "T"), ("R2", "S2")] (fun _ => 0)
      [⟨"R2", "S2", 1/2⟩] "R" "T" (fun _ _ => 1) (fun _ _ => 0) (fun _ _ => 0)).1
      (by norm_num)
  · exact (((attribute_output_change_spec "leontief" [("R", "T"), ("R2", "S2")] (fun _ => 1)
      [⟨"R2", "S2", 1/2⟩] "R" "T" (fun _ _ => 1) (fun _ _ => 0) (fun _ _ => 0)).2
      (by norm_num)).1
      (by norm_num +decide [totalAttributedExternal, externalCauses, impactCauses,
        initialShockLabels, exogenousLabels, dictInsert, fmtLabel, shockContribution,
        Shock.key])).1

/-- Witness for C3 at the test fixture: a 100% shock to C2-Mining. -/
theorem full_shock_zeroes_sector_witness :
    ∃ pL pG,
      run_physical_risk fixtureLabels fixtureA fixtureX fixtureY fixtureL
        [⟨"C2", "Mining", 1⟩] = .ok pL ∧
      run_physical_risk_ghosh fixtureLabels fixtureX fixtureG [⟨"C2", "Mining", 1⟩] =
        .ok pG ∧
      pL.2 ("C2", "Mining") = -(fixtureX ("C2", "Mining")) ∧
      pG.2 ("C2", "Mining") = -(fixtureX ("C2", "Mining")) :=
  full_shock_zeroes_sector fixtureLabels fixtureA fixtureX fixtureY fixtureL fixtureG
    "C2" "Mining" (by decide)
    (by norm_num +decide [fixtureL, fixtureA])
    (by norm_num +decide [fixtureG, fixtureA, fixtureX])

/-! ## C7 — portfolio aggregation -/

theorem sum_map_add (l : List Holding) (f g : Holding → ℚ) :
    (l.map f).sum + (l.map g).sum = (l.map (fun x => f x + g x)).sum := by
  induction l with
  | nil => simp
  | cons x xs ih =>
    simp only [List.map_cons, List.sum_cons]
    rw [← ih]
    ring

/-- C7: for every portfolio whose weights sum to 100, the aggregator passes
the weight gate and computes the portfolio-weighted baseline
`Σ wᵢ/100 · x_old[i]`, the weighted post-shock value with the same
per-holding `Δx` (equivalently `Σ wᵢ/100 · (x_old+Δx)[i]`), the resulting
percentage change, and the portfolio attribution as the weight-normalized
sum of per-holding attribution vectors (`portfolioCombinedCauses`),
re-normalized to sum to 100%. -/
theorem handle_simulation_results_portfolio_spec
    (model_method : String) (labels : List Label) (X delta_x : Label → ℚ)
    (shocks : List Shock) (portfolio : List Holding) (L G A : Label → Label → ℚ)
    (hw : (portfolio.map Holding.weight).sum = 100) :
    ∃ out,
      handle_simulation_results_portfolio model_method labels X delta_x shocks portfolio
          L G A = .ok out ∧
      out.total_before_output =
        (portfolio.map (fun it => it.weight / 100 * X (it.region, it.sector))).sum ∧
      out.portfolio_after =
        (portfolio.map (fun it =>
          it.weight / 100 * (X (it.region, it.sector) + delta_x (it.region, it.sector)))).sum ∧
      (out.total_before_output > 1e-9 →
        out.percentage_change =
          (out.portfolio_after - out.total_before_output) / out.total_before_output * 100) ∧
      out.attribution =
        attribute_portfolio_change model_method labels delta_x shocks portfolio L G A ∧
      (0 < ((portfolioCombinedCauses model_method labels delta_x shocks portfolio
            L G A).map Prod.snd).sum →
        ((attribute_portfolio_change model_method labels delta_x shocks portfolio
            L G A).causes.map Prod.snd).sum = 100) := by
  have hcl : npIsClose ((portfolio.map Holding.weight).sum) 100 = true := by
    rw [hw]
    simp only [npIsClose, decide_eq_true_eq]
    norm_num
  refine ⟨⟨(portfolio.map (fun it => X (it.region, it.sector) * (it.weight / 100))).sum,
      (portfolio.map (fun it => X (it.region, it.sector) * (it.weight / 100))).sum +
        (portfolio.map (fun it => delta_x (it.region, it.sector) * (it.weight / 100))).sum,
      (if (portfolio.map (fun it => X (it.region, it.sector) * (it.weight / 100))).sum > 1e-9
       then (portfolio.map (fun it => delta_x (it.region, it.sector) * (it.weight / 100))).sum /
         (portfolio.map (fun it => X (it.region, it.sector) * (it.weight / 100))).sum * 100
       else 0),
      attribute_portfolio_change model_method labels delta_x shocks portfolio L G A⟩,
    ?_, ?_, ?_, ?_, rfl, ?_⟩
  · rw [handle_simulation_results_portfolio, if_neg (by simp [hcl])]
  · exact congrArg List.sum (List.map_congr_left (fun it _ => by ring))
  · simp only
    rw [sum_map_add]
    exact congrArg List.sum (List.map_congr_left (fun it _ => by ring))
  · intro h
    simp only at h ⊢
    rw [if_pos h]
    congr 1
    ring
  · intro ht
    simp only [attribute_portfolio_change, ht, if_true]
    exact normalized_sum _ _ ht rfl

/-- Witness for C7: a two-holding 60/40 portfolio on the fixture. -/
theorem handle_simulation_results_portfolio_spec_witness :
    ∃ out,
      handle_simulation_results_portfolio "leontief" fixtureLabels fixtureX (fun _ => -1)
          [⟨"C1", "Farming", 1/2⟩]
          [⟨"C1", "Farming", 60⟩, ⟨"C2", "Mining", 40⟩] fixtureL fixtureG fixtureA =
        .ok out ∧
      out.total_before_output =
        ([(⟨"C1", "Farming", 60⟩ : Holding), ⟨"C2", "Mining", 40⟩].map
          (fun it => it.weight / 100 * fixtureX (it.region, it.sector))).sum ∧
      out.portfolio_after =
        ([(⟨"C1", "Farming", 60⟩ : Holding), ⟨"C2", "Mining", 40⟩].map
          (fun it => it.weight / 100 *
            (fixtureX (it.region, it.sector) + (fun _ => (-1 : ℚ)) (it.region, it.sector)))).sum ∧
      (out.total_before_output > 1e-9 →
        out.percentage_change =
          (out.portfolio_after - out.total_before_output) / out.total_before_output * 100) ∧
      out.attribution =
        attribute_portfolio_change "leontief" fixtureLabels (fun _ => -1)
          [⟨"C1", "Farming", 1/2⟩] [⟨"C1", "Farming", 60⟩, ⟨"C2", "Mining", 40⟩]
          fixtureL fixtureG fixtureA ∧
      (0 < ((portfolioCombinedCauses "leontief" fixtureLabels (fun _ => -1)
            [⟨"C1", "Farming", 1/2⟩] [⟨"C1", "Farming", 60⟩, ⟨"C2", "Mining", 40⟩]
            fixtureL fixtureG fixtureA).map Prod.snd).sum →
        ((attribute_portfolio_change "leontief" fixtureLabels (fun _ => -1)
            [⟨"C1", "Farming", 1/2⟩] [⟨"C1", "Farming", 60⟩, ⟨"C2", "Mining", 40⟩]
            fixtureL fixtureG fixtureA).causes.map Prod.snd).sum = 100) :=
  handle_simulation_results_portfolio_spec "leontief" fixtureLabels fixtureX (fun _ => -1)
    [⟨"C1", "Farming", 1/2⟩] [⟨"C1", "Farming", 60⟩, ⟨"C2", "Mining", 40⟩]
    fixtureL fixtureG fixtureA (by norm_num [Holding.weight])

/-! ## C8 — portfolio weight gate -/

/-- C8: for every portfolio whose weights sum to a value deviating from 100
by more than 0.01, the aggregator fails with `PortfolioWeightError` instead
of producing an aggregated result (the code's `np.isclose` gate is even
tighter: `1e-8 + 1e-5·100 ≈ 0.001`), and the run button is disabled. -/
theorem portfolio_weight_gate
    (model_method : String) (labels : List Label) (X delta_x : Label → ℚ)
    (shocks : List Shock) (portfolio : List Holding) (L G A : Label → Label → ℚ)
    (h : 1/100 < |(portfolio.map Holding.weight).sum - 100|) :
    handle_simulation_results_portfolio model_method labels X delta_x shocks portfolio
        L G A = .error .weightsNot100 ∧
    update_run_button_state "portfolio" portfolio = true := by
  have hcl : npIsClose ((portfolio.map Holding.weight).sum) 100 = false := by
    simp only [npIsClose, decide_eq_false_iff_not, not_le]
    calc (1e-8 : ℚ) + 1e-5 * |(100 : ℚ)| < 1/100 := by norm_num
    _ < |(portfolio.map Holding.weight).sum - 100| := h
  constructor
  · rw [handle_simulation_results_portfolio, if_pos (by simp [hcl])]
  · simp [update_run_button_state, hcl]

/-- Witness for C8: a single-holding portfolio with weight 50. -/
theorem portfolio_weight_gate_witness :
    handle_simulation_results_portfolio "leontief" fixtureLabels fixtureX (fun _ => 0)
        [⟨"C1", "Farming", 1/2⟩] [⟨"C1", "Farming", 50⟩] fixtureL fixtureG fixtureA =
      .error .weightsNot100 ∧
    update_run_button_state "portfolio" [⟨"C1", "Farming", 50⟩] = true :=
  portfolio_weight_gate "leontief" fixtureLabels fixtureX (fun _ => 0)
    [⟨"C1", "Farming", 1/2⟩] [⟨"C1", "Farming", 50⟩] fixtureL fixtureG fixtureA
    (by norm_num [Holding.weight])

/-! ## C9 — scenario export→import round trip -/

theorem charVal_digitChar (d : ℕ) (h : d < 10) : charVal (Nat.digitChar d) = d := by
  interval_cases d <;> rfl

theorem digitChar_isDigit (d : ℕ) (h : d < 10) : (Nat.digitChar d).isDigit = true := by
  interval_cases d <;> rfl

theorem parseNatChars_digits (ds : List ℕ) (h : ∀ d ∈ ds, d < 10) (a : ℕ) :
    List.foldl (fun x c => x * 10 + charVal c) a (ds.reverse.map Nat.digitChar) =
      a * 10 ^ ds.length + Nat.ofDigits 10 ds := by
  induction ds generalizing a with
  | nil => simp [Nat.ofDigits]
  | cons d ds ih =>
    have hd : d < 10 := h d (List.mem_cons_self d ds)
    have hds : ∀ x ∈ ds, x < 10 := fun x hx => h x (List.mem_cons_of_mem d hx)
    rw [List.reverse_cons, List.map_append, List.foldl_append, ih hds a]
    simp only [List.map_cons, List.map_nil, List.foldl_cons, List.foldl_nil,
      charVal_digitChar d hd, Nat.ofDigits_cons, List.length_cons]
    ring

theorem parseNatChars_natChars (n : ℕ) : parseNatChars (natChars n) = n := by
  by_cases h : n = 0
  · subst h; rfl
  · rw [natChars, if_neg h, parseNatChars]
    have hdig := parseNatChars_digits (Nat.digits 10 n)
      (fun d hd => Nat.digits_lt_base (by norm_num) hd) 0
    simpa [Nat.ofDigits_digits] using hdig

theorem natChars_isDigit (n : ℕ) : ∀ c ∈ natChars n, c.isDigit = true := by
  intro c hc
  rw [natChars] at hc
  by_cases h : n = 0
  · rw [if_pos h] at hc
    simp only [List.mem_singleton] at hc
    subst hc
    rfl
  · rw [if_neg h] at hc
    obtain ⟨d, hd, rfl⟩ := List.mem_map.mp hc
    exact digitChar_isDigit d (Nat.digits_lt_base (by norm_num) (List.mem_reverse.mp hd))

theorem natChars_ne_nil (n : ℕ) : natChars n ≠ [] := by
  rw [natChars]
  by_cases h : n = 0
  · rw [if_pos h]; exact List.cons_ne_nil _ _
  · rw [if_neg h]
    simp only [ne_eq, List.map_eq_nil_iff, List.reverse_eq_nil_iff]
    exact Nat.digits_ne_nil_iff_ne_zero.mpr h

theorem newline_not_mem_natChars (n : ℕ) : '\n' ∉ natChars n := fun h => by
  have := natChars_isDigit n _ h
  simp [Char.isDigit] at this

theorem parseMagChars_dumpMag (q : ℚ) (hden : q.den = 1) (hq : 0 ≤ q) :
    parseMagChars (dumpMag q) = some q := by
  have hall : (natChars q.num.toNat).all Char.isDigit = true := by
    rw [List.all_eq_true]
    exact fun c hc => natChars_isDigit _ c hc
  rw [dumpMag, parseMagChars, if_pos ⟨natChars_ne_nil _, hall⟩, parseNatChars_natChars]
  congr 1
  have h2 : (q.num : ℚ) = q := by
    have h3 := Rat.num_div_den q
    rw [hden] at h3
    simpa using h3
  rw [← h2]
  norm_cast
  exact Int.toNat_of_nonneg (Rat.num_nonneg.mpr hq)

theorem dropPrefixChars_append (p r : List Char) : dropPrefixChars p (p ++ r) = some r := by
  induction p with
  | nil => rfl
  | cons c cs ih => simp [dropPrefixChars, ih]

theorem splitLines_ne_nil (l : List Char) : splitLines l ≠ [] := by
  induction l with
  | nil => exact List.cons_ne_nil _ _
  | cons c cs ih =>
    rw [splitLines]
    obtain ⟨l0, ls0, heq⟩ := List.exists_cons_of_ne_nil ih
    rw [heq]
    by_cases hc : c = '\n' <;> simp [hc]

theorem splitLines_append (a b : List Char) (h : '\n' ∉ a) :
    splitLines (a ++ '\n' :: b) = a :: splitLines b := by
  induction a with
  | nil =>
    rw [List.nil_append, splitLines]
    obtain ⟨l0, ls0, heq⟩ := List.exists_cons_of_ne_nil (splitLines_ne_nil b)
    rw [heq]
    simp
  | cons c cs ih =>
    have hc : c ≠ '\n' ∧ '\n' ∉ cs := by
      constructor
      · intro he; exact h (he ▸ List.mem_cons_self c cs)
      · intro hm; exact h (List.mem_cons_of_mem c hm)
    rw [List.cons_append, splitLines, ih hc.2]
    simp [hc.1]

theorem splitLines_dumpShock (s : Shock) (tail : List Char)
    (hr : '\n' ∉ s.region.data) (hs : '\n' ∉ s.sector.data) :
    splitLines (dumpShockChars s ++ tail) =
      ("- region: ".toList ++ s.region.toList) ::
      ("  sector: ".toList ++ s.sector.toList) ::
      ("  magnitude: ".toList ++ dumpMag s.magnitude) ::
      splitLines tail := by
  have h1 : '\n' ∉ "- region: ".toList ++ s.region.toList := by
    rw [List.mem_append]
    rintro (hm | hm)
    · revert hm; decide
    · exact hr hm
  have h2 : '\n' ∉ "  sector: ".toList ++ s.sector.toList := by
    rw [List.mem_append]
    rintro (hm | hm)
    · revert hm; decide
    · exact hs hm
  have h3 : '\n' ∉ "  magnitude: ".toList ++ dumpMag s.magnitude := by
    rw [List.mem_append]
    rintro (hm | hm)
    · revert hm; decide
    · exact newline_not_mem_natChars _ hm
  have e1 : dumpShockChars s ++ tail =
      ("- region: ".toList ++ s.region.toList) ++ '\n' ::
        (("  sector: ".toList ++ s.sector.toList) ++ '\n' ::
          (("  magnitude: ".toList ++ dumpMag s.magnitude) ++ '\n' :: tail)) := by
    simp [dumpShockChars, List.append_assoc]
  rw [e1, splitLines_append _ _ h1, splitLines_append _ _ h2, splitLines_append _ _ h3]

theorem parseShockLines_export (scenario : List Shock)
    (hstr : ∀ s ∈ scenario, '\n' ∉ s.region.data ∧ '\n' ∉ s.sector.data)
    (hmag : ∀ s ∈ scenario, s.magnitude.den = 1 ∧ 0 ≤ s.magnitude) :
    parseShockLines (splitLines (scenario.map dumpShockChars).flatten) = some scenario := by
  induction scenario with
  | nil => rfl
  | cons s rest ih =>
    have hcur := hstr s (List.mem_cons_self s rest)
    have hm := hmag s (List.mem_cons_self s rest)
    rw [List.map_cons, List.flatten_cons,
      splitLines_dumpShock s _ hcur.1 hcur.2, parseShockLines]
    simp only [dropPrefixChars_append, parseMagChars_dumpMag s.magnitude hm.1 hm.2,
      ih (fun t ht => hstr t (List.mem_cons_of_mem s ht))
         (fun t ht => hmag t (List.mem_cons_of_mem s ht)),
      Option.bind_eq_bind, Option.some_bind]
    rfl

/-- C9: exporting a shock-set scenario with `export_scenario` and
re-importing the text through the upload branch of `update_scenario_store`
reproduces exactly the same (region, sector, magnitude) records — the order
is even preserved, which is stronger than the claimed order-insensitive
equality.  The hypotheses bound the modelled fragment of the external YAML
library: newline-free plain strings and nonnegative-integer magnitudes (the
builder slider has `step=1`). -/
theorem scenario_roundtrip (scenario current : List Shock)
    (hstr : ∀ s ∈ scenario, '\n' ∉ s.region.data ∧ '\n' ∉ s.sector.data)
    (hmag : ∀ s ∈ scenario, s.magnitude.den = 1 ∧ 0 ≤ s.magnitude) :
    update_scenario_store_upload (export_scenario scenario) current = scenario := by
  have hparse : parseScenario (export_scenario scenario) = some scenario := by
    rw [parseScenario, export_scenario]
    exact parseShockLines_export scenario hstr hmag
  rw [update_scenario_store_upload, hparse]

/-- Witness for C9: a one-shock scenario round trip. -/
theorem scenario_roundtrip_witness :
    update_scenario_store_upload (export_scenario [⟨"C1", "Farming", 50⟩]) [] =
      [⟨"C1", "Farming", 50⟩] :=
  scenario_roundtrip [⟨"C1", "Farming", 50⟩] [] (by decide)
    (by
      intro s hs
      rw [List.mem_singleton] at hs
      subst hs
      norm_num)

/-! ## C10 — attribution is keyed by the formatted string label -/

theorem dictInsert_keys_nodup (d : List (String × ℚ)) (k : String) (v : ℚ)
    (h : (d.map Prod.fst).Nodup) : ((dictInsert d k v).map Prod.fst).Nodup := by
  rw [dictInsert]
  by_cases hc : d.any (fun kv => kv.1 = k)
  · rw [if_pos hc]
    have hmap : (d.map (fun kv => if kv.1 = k then (kv.1, v) else kv)).map Prod.fst =
        d.map Prod.fst := by
      rw [List.map_map]
      exact List.map_congr_left (fun kv _ => by by_cases hkv : kv.1 = k <;> simp [hkv])
    rw [hmap]
    exact h
  · rw [if_neg hc, List.map_append]
    refine List.Nodup.append h (by simp) ?_
    intro a ha hb
    rw [List.map_cons, List.map_nil, List.mem_singleton] at hb
    subst hb
    obtain ⟨kv, hkv, hfst⟩ := List.mem_map.mp ha
    exact absurd (List.any_eq_true.mpr ⟨kv, hkv, by simp [hfst]⟩) hc

theorem foldl_dictInsert_keys_nodup (f : Label → String) (g : Label → ℚ) :
    ∀ (ls : List Label) (d : List (String × ℚ)), (d.map Prod.fst).Nodup →
      ((ls.foldl (fun d l => dictInsert d (f l) (g l)) d).map Prod.fst).Nodup := by
  intro ls
  induction ls with
  | nil => exact fun d h => h
  | cons l ls ih => exact fun d h => ih _ (dictInsert_keys_nodup d (f l) (g l) h)

theorem keys_nodup_of_norm (l : List (String × ℚ)) (g : String × ℚ → ℚ)
    (h : (l.map Prod.fst).Nodup) :
    ((l.map (fun kv => (kv.1, g kv))).map Prod.fst).Nodup := by
  rw [List.map_map]
  rw [show (Prod.fst ∘ fun kv : String × ℚ => (kv.1, g kv)) = Prod.fst from rfl]
  exact h

theorem attribute_causes_keys_nodup (model_method : String) (labels : List Label)
    (delta_x : Label → ℚ) (shocks : List Shock) (home_region home_sector : String)
    (L G A : Label → Label → ℚ) :
    (((attribute_output_change model_method labels delta_x shocks home_region home_sector
        L G A).causes).map Prod.fst).Nodup := by
  by_cases h : |delta_x (home_region, home_sector)| < 1e-10
  · simp [attribute_output_change, if_pos h]
  · rw [attribute_output_change_main model_method labels delta_x shocks home_region
      home_sector L G A h]
    refine keys_nodup_of_norm _ _ ?_
    have hperm := List.mergeSort_perm (externalCauses model_method labels delta_x shocks
      (home_region, home_sector) L G A) (fun a b => decide (b.2 ≤ a.2))
    refine ((hperm.map Prod.fst).nodup_iff).mpr ?_
    refine List.Nodup.sublist ((List.filter_sublist _).map Prod.fst) ?_
    rw [impactCauses]
    exact foldl_dictInsert_keys_nodup _ _ _ [] (by simp)

/-- C10: `attribute_output_change` identifies causes and excludes
self-attribution by the formatted string `"region - sector"` rather than by
the (region, sector) pair: the causes mapping always carries one entry per
distinct formatted string (its key list has no duplicates); two distinct
shocks `("A", "B - C")` and `("A - B", "C")` share the formatted string
`"A - B - C"` and collapse into a single entry carrying the later
(universe-order) contribution; and an external shock whose formatted string
equals the target's is silently dropped even though its raw contribution is
nonzero and its pair differs from the target's. -/
theorem attribution_keyed_by_string :
    (∀ (model_method : String) (labels : List Label) (delta_x : Label → ℚ)
      (shocks : List Shock) (home_region home_sector : String)
      (L G A : Label → Label → ℚ),
      (((attribute_output_change model_method labels delta_x shocks home_region home_sector
          L G A).causes).map Prod.fst).Nodup) ∧
    (((("A" : String), ("B - C" : String)) : Label) ≠ (("A - B" : String), ("C" : String)) ∧
     fmtLabel ("A", "B - C") = fmtLabel ("A - B", "C") ∧
     attribute_output_change "leontief" [("A", "B - C"), ("A - B", "C"), ("T", "T")]
        (fun _ => 1) [⟨"A", "B - C", 1/2⟩, ⟨"A - B", "C", 1/2⟩] "T" "T"
        (fun _ s => if s = (("A" : String), ("B - C" : String)) then 1 else 2)
        (fun _ _ => 0) (fun _ _ => 0) =
      ⟨1, [("A - B - C", 100)], "Change in Gross Output for T"⟩) ∧
    (attribute_output_change "leontief" [("A", "B - C"), ("A - B", "C")] (fun _ => 1)
        [⟨"A", "B - C", 1/2⟩] "A - B" "C"
        (fun _ _ => 5) (fun _ _ => 0) (fun _ _ => 0) =
      ⟨1, [], "Change in Gross Output for C"⟩ ∧
     shockContribution "leontief" (fun _ => 1) ("A - B", "C") (fun _ _ => 5) (fun _ _ => 0)
        (fun _ _ => 0) ("A", "B - C") = 5) := by
  refine ⟨attribute_causes_keys_nodup, ⟨by decide, by decide, ?_⟩, ?_, ?_⟩
  · norm_num +decide [attribute_output_change, totalAttributedExternal, externalCauses,
      impactCauses, initialShockLabels, exogenousLabels, dictInsert, fmtLabel,
      shockContribution, Shock.key]
  · norm_num +decide [attribute_output_change, totalAttributedExternal, externalCauses,
      impactCauses, initialShockLabels, exogenousLabels, dictInsert, fmtLabel,
      shockContribution, Shock.key]
  · norm_num +decide [shockContribution]
